import Mathlib

/-!
Shallow embedding of `src/gradebook.py` (GradeBook Analyzer CLI).

The score store is modelled as an ordered association list from student
name to integer score, matching the insertion-ordered Python `dict`.
Python floats are modelled as rationals (every value produced here is an
integer or a half-integer, exactly representable either way).  Console
output relevant to the claims is modelled as explicit message lists;
file access is modelled by a `FileOutcome` describing what `open` /
reading would have produced.
-/

/-- A Python `dict[str, int]` in insertion order: the Score Store. -/
abbrev ScoreStore := List (String × Int)

/-- Python `str.strip()`: drop leading and trailing whitespace. -/
def pyStrip (s : String) : String :=
  ⟨((s.data.dropWhile Char.isWhitespace).reverse.dropWhile Char.isWhitespace).reverse⟩

/-- Python `str.lower()` (ASCII case folding, which is all the program compares). -/
def pyLower (s : String) : String :=
  ⟨s.data.map Char.toLower⟩

/-- Value of a string of decimal digits. -/
def digitsToNat (l : List Char) : Nat :=
  l.foldl (fun n c => 10 * n + (c.toNat - 48)) 0

/-- Python `int(s)`: strip whitespace, then an optional sign followed by
decimal digits; raises `ValueError` (here: `none`) otherwise. -/
def pyInt (s : String) : Option Int :=
  match (pyStrip s).data with
  | '-' :: rest =>
    if rest ≠ [] ∧ rest.all Char.isDigit then some (-(digitsToNat rest : Int)) else none
  | '+' :: rest =>
    if rest ≠ [] ∧ rest.all Char.isDigit then some (digitsToNat rest : Int) else none
  | rest =>
    if rest ≠ [] ∧ rest.all Char.isDigit then some (digitsToNat rest : Int) else none

/-- Python `d[k] = v` on an insertion-ordered dict: update in place if the
key exists, otherwise append at the end. -/
def pyInsert {β : Type} (d : List (String × β)) (k : String) (v : β) :
    List (String × β) :=
  if k ∈ d.map Prod.fst then d.map (fun p => if p.1 = k then (k, v) else p)
  else d ++ [(k, v)]

/-- `calculate_average` (gradebook.py lines 12-19): mean of the scores,
`0.0` on an empty store. -/
def calculate_average (marks_dict : ScoreStore) : ℚ :=
  if marks_dict = [] then 0
  else
    let total_marks : Int := (marks_dict.map Prod.snd).sum
    let count : Nat := marks_dict.length
    (total_marks : ℚ) / (count : ℚ)

/-- `calculate_median` (gradebook.py lines 21-38): sort the scores, take the
middle element for odd count, the mean of the two middle elements for even
count, `0.0` on an empty store. -/
def calculate_median (marks_dict : ScoreStore) : ℚ :=
  if marks_dict = [] then 0
  else
    let sorted_marks := (marks_dict.map Prod.snd).insertionSort (· ≤ ·)
    let n := sorted_marks.length
    let middle_index := n / 2
    if n % 2 = 1 then ((sorted_marks.getD middle_index 0 : Int) : ℚ)
    else ((sorted_marks.getD (middle_index - 1) 0 + sorted_marks.getD middle_index 0 : Int) : ℚ) / 2

/-- `find_max_score` (gradebook.py lines 40-44): `max` of the scores, `0` on
an empty store. -/
def find_max_score (marks_dict : ScoreStore) : Int :=
  if marks_dict = [] then 0
  else
    match marks_dict.map Prod.snd with
    | [] => 0
    | v :: vs => vs.foldl max v

/-- `find_min_score` (gradebook.py lines 46-50): `min` of the scores, `0` on
an empty store. -/
def find_min_score (marks_dict : ScoreStore) : Int :=
  if marks_dict = [] then 0
  else
    match marks_dict.map Prod.snd with
    | [] => 0
    | v :: vs => vs.foldl min v

/-- `assign_grade` (gradebook.py lines 54-66): threshold ladder A/B/C/D/F. -/
def assign_grade (score : Int) : Char :=
  if score ≥ 90 then 'A'
  else if score ≥ 80 then 'B'
  else if score ≥ 70 then 'C'
  else if score ≥ 60 then 'D'
  else 'F'

/-- Body of the loop of `calculate_grades_and_distribution` (gradebook.py
lines 73-76): record the student's grade and increment its histogram
bucket (`grade_distribution[grade] += 1`). -/
def gradeStep (acc : List (String × Char) × List (Char × Nat)) (sm : String × Int) :
    List (String × Char) × List (Char × Nat) :=
  let grade := assign_grade sm.2
  (pyInsert acc.1 sm.1 grade,
   acc.2.map (fun p => if p.1 = grade then (p.1, p.2 + 1) else p))

/-- `calculate_grades_and_distribution` (gradebook.py lines 68-78): grade
every record and count grades into a histogram initialised with all five
letters at zero. -/
def calculate_grades_and_distribution (marks_dict : ScoreStore) :
    List (String × Char) × List (Char × Nat) :=
  marks_dict.foldl gradeStep ([], [('A', 0), ('B', 0), ('C', 0), ('D', 0), ('F', 0)])

/-- Mode of the manual-entry loop: waiting for a student name, or waiting
for a mark for the given name. -/
inductive EntryMode
  | awaitName : EntryMode
  | awaitMark : String → EntryMode

/-- The interactive loop of `manual_data_entry` (gradebook.py lines 82-104),
driven by the list of lines the user types.  Input exhaustion returns the
marks accumulated so far. -/
def manualEntryLoop : List String → EntryMode → ScoreStore → ScoreStore
  | [], _, marks => marks
  | line :: rest, .awaitName, marks =>
    let name := pyStrip line
    if pyLower name = "done" then marks
    else if name = "" then manualEntryLoop rest .awaitName marks
    else manualEntryLoop rest (.awaitMark name) marks
  | line :: rest, .awaitMark name, marks =>
    match pyInt line with
    | some mark =>
      if 0 ≤ mark ∧ mark ≤ 100 then manualEntryLoop rest .awaitName (pyInsert marks name mark)
      else manualEntryLoop rest (.awaitMark name) marks
    | none => manualEntryLoop rest (.awaitMark name) marks

/-- `manual_data_entry` (gradebook.py lines 82-104) as a function of the
typed input lines. -/
def manual_data_entry (inputs : List String) : ScoreStore :=
  manualEntryLoop inputs .awaitName []

/-- Console messages printed by `load_data_from_csv`. -/
inductive CsvMessage
  | skipOutOfRange : String → Int → CsvMessage
  | skipInvalidMark : String → CsvMessage
  | skipNotEnoughData : List String → CsvMessage
  | loaded : Nat → CsvMessage
  | fileNotFoundMessage : CsvMessage
  | unexpectedErrorMessage : CsvMessage
  deriving DecidableEq

/-- What opening and reading the CSV file produces: a missing file, some
other I/O failure, or the parsed rows (header included). -/
inductive FileOutcome
  | notFound : FileOutcome
  | ioError : FileOutcome
  | content : List (List String) → FileOutcome

/-- Body of the row loop of `load_data_from_csv` (gradebook.py lines
114-126): accept a row with at least two fields whose second field parses
as an integer in [0, 100]; otherwise print a skip warning. -/
def processRow (acc : ScoreStore × List CsvMessage) (row : List String) :
    ScoreStore × List CsvMessage :=
  if 2 ≤ row.length then
    let student_name := pyStrip (row.getD 0 "")
    match pyInt (pyStrip (row.getD 1 "")) with
    | some mark =>
      if 0 ≤ mark ∧ mark ≤ 100 then (pyInsert acc.1 student_name mark, acc.2)
      else (acc.1, acc.2 ++ [.skipOutOfRange student_name mark])
    | none => (acc.1, acc.2 ++ [.skipInvalidMark student_name])
  else (acc.1, acc.2 ++ [.skipNotEnoughData row])

/-- `load_data_from_csv` (gradebook.py lines 106-136).  `FileNotFoundError`
and any other exception (including the `StopIteration` from `next(reader)`
on an empty file) print a message and return `None`; otherwise the header
row is skipped, each data row is processed, and a success message reports
`len(marks)`. -/
def load_data_from_csv : FileOutcome → Option ScoreStore × List CsvMessage
  | .notFound => (none, [.fileNotFoundMessage])
  | .ioError => (none, [.unexpectedErrorMessage])
  | .content [] => (none, [.unexpectedErrorMessage])
  | .content (_header :: dataRows) =>
    let res := dataRows.foldl processRow ([], [])
    (some res.1, res.2 ++ [.loaded res.1.length])

/-- Python `d[k]` on an association-list dict: the value stored under the
first (and, for `pyInsert`-built dicts, only) occurrence of the key. -/
def storeLookup {β : Type} (k : String) : List (String × β) → Option β
  | [] => none
  | p :: rest => if p.1 = k then some p.2 else storeLookup k rest

/-- Name a CSV row would be stored under: its first field, stripped. -/
def row_name (row : List String) : String := pyStrip (row.getD 0 "")

/-- Score a CSV row contributes, when it is accepted: present exactly when
the row has at least two fields, the second parses as an integer, and the
value lies in [0, 100]. -/
def row_score (row : List String) : Option Int :=
  if 2 ≤ row.length then
    match pyInt (pyStrip (row.getD 1 "")) with
    | some mark => if 0 ≤ mark ∧ mark ≤ 100 then some mark else none
    | none => none
  else none

/-- Whether a CSV row is accepted into the store. -/
def row_accepted (row : List String) : Bool := (row_score row).isSome

/-- The pass list of `print_pass_fail_summary` (gradebook.py line 182):
records with score ≥ 40. -/
def passed_students (marks_dict : ScoreStore) : ScoreStore :=
  marks_dict.filter (fun p => decide (40 ≤ p.2))

/-- The fail list of `print_pass_fail_summary` (gradebook.py line 185):
records with score < 40. -/
def failed_students (marks_dict : ScoreStore) : ScoreStore :=
  marks_dict.filter (fun p => decide (p.2 < 40))

/-- Python truthiness of `marks_data` at gradebook.py line 257: `None` and
the empty dict are falsy. -/
def analysisRuns : Option ScoreStore → Bool
  | none => false
  | some marks => decide (marks ≠ [])

/-- Whether the notice at gradebook.py line 259 is printed: it sits inside
`if marks_data:` and is itself guarded by `if not marks_data:`. -/
def noDataNoticePrinted : Option ScoreStore → Bool
  | none => false
  | some marks => decide (marks ≠ []) && decide (marks = [])

/-- Fate of one pass of the menu loop. -/
inductive MenuOutcome
  | continueLoop : MenuOutcome
  | exitProgram : MenuOutcome
  deriving DecidableEq

/-- One iteration of the `while True` loop of `main` (gradebook.py lines
235-269): returns whether the process exits and whether the analysis /
report block runs. -/
def menu_iteration (choice : String) (manualInputs : List String)
    (file : FileOutcome) : MenuOutcome × Bool :=
  if choice = "1" then (.continueLoop, analysisRuns (some (manual_data_entry manualInputs)))
  else if choice = "2" then (.continueLoop, analysisRuns (load_data_from_csv file).1)
  else if choice = "3" then (.exitProgram, false)
  else (.continueLoop, false)

/-- Modelled from the spec: the classic textbook median of an already
sorted list — the single middle value for odd length, the arithmetic mean
of the two central values for even length, `0.0` when empty. -/
def textbookMedian (l : List Int) : ℚ :=
  if l = [] then 0
  else if l.length % 2 = 1 then ((l.getD ((l.length - 1) / 2) 0 : Int) : ℚ)
  else ((l.getD (l.length / 2 - 1) 0 + l.getD (l.length / 2) 0 : Int) : ℚ) / 2

/-! ## Helper lemmas -/

lemma assign_grade_eq_A (s : Int) : assign_grade s = 'A' ↔ 90 ≤ s := by
  unfold assign_grade; split_ifs <;> simp_all

lemma assign_grade_eq_B (s : Int) : assign_grade s = 'B' ↔ 80 ≤ s ∧ s < 90 := by
  unfold assign_grade; split_ifs <;> simp_all

lemma assign_grade_eq_C (s : Int) : assign_grade s = 'C' ↔ 70 ≤ s ∧ s < 80 := by
  unfold assign_grade; split_ifs <;> simp_all
  omega

lemma assign_grade_eq_D (s : Int) : assign_grade s = 'D' ↔ 60 ≤ s ∧ s < 70 := by
  unfold assign_grade; split_ifs <;> simp_all <;> omega

lemma assign_grade_eq_F (s : Int) : assign_grade s = 'F' ↔ s < 60 := by
  unfold assign_grade; split_ifs <;> simp_all <;> omega

lemma assign_grade_cases (s : Int) :
    assign_grade s = 'A' ∨ assign_grade s = 'B' ∨ assign_grade s = 'C' ∨
      assign_grade s = 'D' ∨ assign_grade s = 'F' := by
  unfold assign_grade; split_ifs <;> simp

lemma pyInsert_keys {β : Type} (d : List (String × β)) (k : String) (v : β) :
    (pyInsert d k v).map Prod.fst =
      if k ∈ d.map Prod.fst then d.map Prod.fst else d.map Prod.fst ++ [k] := by
  unfold pyInsert
  split_ifs with h
  · simp only [List.map_map]
    congr 1
    funext p
    by_cases hp : p.1 = k <;> simp [hp]
  · simp

lemma pyInsert_key_iff {β : Type} (d : List (String × β)) (k n : String) (v : β) :
    n ∈ (pyInsert d k v).map Prod.fst ↔ n = k ∨ n ∈ d.map Prod.fst := by
  rw [pyInsert_keys]
  split_ifs with h
  · constructor
    · exact fun hn => Or.inr hn
    · rintro (rfl | hn)
      · exact h
      · exact hn
  · simp only [List.mem_append, List.mem_singleton]
    tauto

lemma pyInsert_mem {β : Type} {d : List (String × β)} {k : String} {v : β}
    {p : String × β} (hp : p ∈ pyInsert d k v) : p = (k, v) ∨ p ∈ d := by
  unfold pyInsert at hp
  split_ifs at hp with h
  · obtain ⟨q, hq, hfq⟩ := List.mem_map.mp hp
    by_cases hqk : q.1 = k
    · left; rw [← hfq]; simp [hqk]
    · right
      rw [← hfq]
      simpa [hqk] using hq
  · rcases List.mem_append.mp hp with h1 | h1
    · right; exact h1
    · left; simpa using h1

lemma lookup_map_update {β : Type} (d : List (String × β)) (k : String) (v : β)
    (h : k ∈ d.map Prod.fst) :
    storeLookup k (d.map (fun p => if p.1 = k then (k, v) else p)) = some v := by
  induction d with
  | nil => simp at h
  | cons p rest ih =>
    by_cases hpk : p.1 = k
    · simp [storeLookup, hpk]
    · have hmem : k ∈ rest.map Prod.fst := by
        rcases List.mem_map.mp h with ⟨q, hq, hfq⟩
        rcases List.mem_cons.mp hq with rfl | hq2
        · exact absurd hfq hpk
        · exact List.mem_map.mpr ⟨q, hq2, hfq⟩
      simpa [storeLookup, hpk] using ih hmem

lemma lookup_append_single {β : Type} (d : List (String × β)) (k : String) (v : β)
    (h : k ∉ d.map Prod.fst) : storeLookup k (d ++ [(k, v)]) = some v := by
  induction d with
  | nil => simp [storeLookup]
  | cons p rest ih =>
    have hpk : ¬(p.1 = k) := by
      intro hk
      exact h (List.mem_map.mpr ⟨p, List.mem_cons_self p rest, hk⟩)
    have hrest : k ∉ rest.map Prod.fst := fun hm => h (List.mem_map.mp hm |>.elim
      (fun q hq => List.mem_map.mpr ⟨q, List.mem_cons_of_mem p hq.1, hq.2⟩))
    simpa [storeLookup, hpk] using ih hrest

lemma pyInsert_lookup {β : Type} (d : List (String × β)) (k : String) (v : β) :
    storeLookup k (pyInsert d k v) = some v := by
  unfold pyInsert
  split_ifs with h
  · exact lookup_map_update d k v h
  · exact lookup_append_single d k v h

lemma pyInsert_length_of_mem {β : Type} (d : List (String × β)) (k : String) (v : β)
    (h : k ∈ d.map Prod.fst) : (pyInsert d k v).length = d.length := by
  unfold pyInsert
  simp [h]

/-! ## Claim theorems -/

/-- C1: `assign_grade` always returns one of the letters A, B, C, D, F,
chosen by evaluating the thresholds high to low with the first match
winning (≥90 → A, else ≥80 → B, else ≥70 → C, else ≥60 → D, else F), and
the boundaries are exact: 89 → B, 90 → A, 59 → F, 60 → D. -/
theorem assign_grade_correct (s : Int) :
    (assign_grade s = 'A' ∨ assign_grade s = 'B' ∨ assign_grade s = 'C' ∨
      assign_grade s = 'D' ∨ assign_grade s = 'F') ∧
    (assign_grade s = 'A' ↔ 90 ≤ s) ∧
    (assign_grade s = 'B' ↔ 80 ≤ s ∧ s < 90) ∧
    (assign_grade s = 'C' ↔ 70 ≤ s ∧ s < 80) ∧
    (assign_grade s = 'D' ↔ 60 ≤ s ∧ s < 70) ∧
    (assign_grade s = 'F' ↔ s < 60) ∧
    assign_grade 89 = 'B' ∧ assign_grade 90 = 'A' ∧
    assign_grade 59 = 'F' ∧ assign_grade 60 = 'D' :=
  ⟨assign_grade_cases s, assign_grade_eq_A s, assign_grade_eq_B s,
    assign_grade_eq_C s, assign_grade_eq_D s, assign_grade_eq_F s,
    by decide, by decide, by decide, by decide⟩

/-- C5: on the empty score store, `calculate_average` returns 0.0,
`calculate_median` returns 0.0, `find_max_score` returns 0 and
`find_min_score` returns 0, all as total functions with no error path. -/
theorem empty_store_statistics :
    calculate_average ([] : ScoreStore) = 0 ∧
    calculate_median ([] : ScoreStore) = 0 ∧
    find_max_score ([] : ScoreStore) = 0 ∧
    find_min_score ([] : ScoreStore) = 0 := by
  refine ⟨rfl, rfl, rfl, rfl⟩

lemma bump_keys (dist : List (Char × Nat)) (g : Char) :
    (dist.map (fun p => if p.1 = g then (p.1, p.2 + 1) else p)).map Prod.fst =
      dist.map Prod.fst := by
  simp only [List.map_map]
  congr 1
  funext p
  by_cases hp : p.1 = g <;> simp [hp]

lemma bump_not_mem (dist : List (Char × Nat)) (g : Char)
    (h : g ∉ dist.map Prod.fst) :
    dist.map (fun p => if p.1 = g then (p.1, p.2 + 1) else p) = dist := by
  induction dist with
  | nil => rfl
  | cons p rest ih =>
    have hp : ¬(p.1 = g) := by
      intro hg
      exact h (List.mem_map.mpr ⟨p, List.mem_cons_self p rest, hg⟩)
    have hrest : g ∉ rest.map Prod.fst := fun hm => h (List.mem_map.mp hm |>.elim
      (fun q hq => List.mem_map.mpr ⟨q, List.mem_cons_of_mem p hq.1, hq.2⟩))
    simp [hp, ih hrest]

lemma bump_sum (dist : List (Char × Nat)) (g : Char)
    (hmem : g ∈ dist.map Prod.fst) (hnd : (dist.map Prod.fst).Nodup) :
    ((dist.map (fun p => if p.1 = g then (p.1, p.2 + 1) else p)).map Prod.snd).sum =
      (dist.map Prod.snd).sum + 1 := by
  induction dist with
  | nil => simp at hmem
  | cons p rest ih =>
    simp only [List.map_cons, List.nodup_cons] at hnd
    by_cases hp : p.1 = g
    · rw [List.map_cons, if_pos hp, bump_not_mem rest g (hp ▸ hnd.1)]
      simp
      omega
    · have hg : g ∈ rest.map Prod.fst := by
        rw [List.map_cons] at hmem
        rcases List.mem_cons.mp hmem with h1 | h1
        · exact absurd h1.symm hp
        · exact h1
      rw [List.map_cons, if_neg hp]
      simp only [List.map_cons, List.sum_cons]
      rw [ih hg hnd.2]
      omega

lemma gradeFold_keys (marks : ScoreStore)
    (acc : List (String × Char) × List (Char × Nat)) :
    ((marks.foldl gradeStep acc).2).map Prod.fst = acc.2.map Prod.fst := by
  induction marks generalizing acc with
  | nil => rfl
  | cons sm rest ih =>
    rw [List.foldl_cons, ih]
    exact bump_keys acc.2 (assign_grade sm.2)

lemma gradeFold_sum (marks : ScoreStore)
    (acc : List (String × Char) × List (Char × Nat))
    (hkeys : acc.2.map Prod.fst = ['A', 'B', 'C', 'D', 'F']) :
    (((marks.foldl gradeStep acc).2).map Prod.snd).sum =
      (acc.2.map Prod.snd).sum + marks.length := by
  induction marks generalizing acc with
  | nil => simp
  | cons sm rest ih =>
    rw [List.foldl_cons]
    have hmem : assign_grade sm.2 ∈ acc.2.map Prod.fst := by
      rw [hkeys]
      rcases assign_grade_cases sm.2 with h | h | h | h | h <;> rw [h] <;> decide
    have hnd : (acc.2.map Prod.fst).Nodup := by rw [hkeys]; decide
    have hkeys2 : (gradeStep acc sm).2.map Prod.fst = ['A', 'B', 'C', 'D', 'F'] := by
      show (acc.2.map _).map Prod.fst = _
      rw [bump_keys acc.2 (assign_grade sm.2), hkeys]
    rw [ih (gradeStep acc sm) hkeys2]
    show (((acc.2.map _).map Prod.snd).sum) + rest.length = _
    rw [bump_sum acc.2 (assign_grade sm.2) hmem hnd]
    simp [List.length_cons]
    omega

/-- C3: for every score store, the histogram produced by
`calculate_grades_and_distribution` has exactly the five keys A, B, C, D, F
in that order (each present even when its count is zero), and the five
counts sum to the number of records in the input. -/
theorem histogram_keys_and_total (marks_dict : ScoreStore) :
    ((calculate_grades_and_distribution marks_dict).2.map Prod.fst =
      ['A', 'B', 'C', 'D', 'F']) ∧
    (((calculate_grades_and_distribution marks_dict).2.map Prod.snd).sum =
      marks_dict.length) := by
  constructor
  · exact gradeFold_keys marks_dict _
  · rw [calculate_grades_and_distribution, gradeFold_sum marks_dict _ (by decide)]
    simp

lemma pass_fail_length (marks : ScoreStore) :
    (passed_students marks).length + (failed_students marks).length = marks.length := by
  induction marks with
  | nil => rfl
  | cons q rest ih =>
    unfold passed_students failed_students at ih ⊢
    rw [List.filter_cons, List.filter_cons]
    by_cases hq : 40 ≤ q.2
    · rw [if_pos (decide_eq_true hq),
        if_neg (by simp only [decide_eq_true_eq]; omega)]
      simp only [List.length_cons]
      omega
    · rw [if_neg (by simp only [decide_eq_true_eq]; omega),
        if_pos (decide_eq_true (show q.2 < 40 by omega))]
      simp only [List.length_cons]
      omega

/-- C4: the pass list (score ≥ 40) and the fail list (score < 40) of
`print_pass_fail_summary` form a disjoint cover of the store — every record
is in exactly one of the two lists, a record with score exactly 40 passes,
and the two lengths sum to the store size. -/
theorem pass_fail_partition (marks_dict : ScoreStore) (p : String × Int) :
    (p ∈ passed_students marks_dict ↔ p ∈ marks_dict ∧ 40 ≤ p.2) ∧
    (p ∈ failed_students marks_dict ↔ p ∈ marks_dict ∧ p.2 < 40) ∧
    (p ∈ marks_dict → (p ∈ passed_students marks_dict ↔ p ∉ failed_students marks_dict)) ∧
    (p ∈ marks_dict → p.2 = 40 → p ∈ passed_students marks_dict) ∧
    (passed_students marks_dict).length + (failed_students marks_dict).length =
      marks_dict.length := by
  have hpass : p ∈ passed_students marks_dict ↔ p ∈ marks_dict ∧ 40 ≤ p.2 := by
    simp [passed_students, List.mem_filter]
  have hfail : p ∈ failed_students marks_dict ↔ p ∈ marks_dict ∧ p.2 < 40 := by
    simp [failed_students, List.mem_filter]
  refine ⟨hpass, hfail, ?_, ?_, ?_⟩
  · intro hmem
    rw [hpass, hfail]
    constructor
    · rintro ⟨-, h40⟩ ⟨-, hlt⟩
      omega
    · intro hn
      refine ⟨hmem, ?_⟩
      by_contra hlt
      exact hn ⟨hmem, by omega⟩
  · intro hmem h40
    exact hpass.mpr ⟨hmem, by omega⟩
  · exact pass_fail_length marks_dict

/-- C4 witness: in the concrete store `{Dan: 40, Carol: 38}` the record
`(Dan, 40)` is classified as a pass. -/
theorem pass_fail_partition_witness :
    ("Dan", (40 : Int)) ∈ passed_students [("Dan", 40), ("Carol", 38)] :=
  (pass_fail_partition [("Dan", 40), ("Carol", 38)] ("Dan", 40)).2.2.2.1
    (by decide) rfl

lemma sorted_perm_eq_insertionSort (values l : List Int) (hperm : l.Perm values)
    (hsort : l.Sorted (· ≤ ·)) : l = values.insertionSort (· ≤ ·) :=
  List.eq_of_perm_of_sorted (hperm.trans (List.perm_insertionSort _ values).symm)
    hsort (List.sorted_insertionSort _ values)

/-- C2: `calculate_median` agrees with the textbook median — for any sorted
permutation `l` of the stored scores, it returns the single middle value of
`l` when the count is odd, the mean of the two central values when the
count is even, and `0.0` when the store is empty. -/
theorem calculate_median_textbook (marks_dict : ScoreStore) (l : List Int)
    (hperm : l.Perm (marks_dict.map Prod.snd)) (hsort : l.Sorted (· ≤ ·)) :
    calculate_median marks_dict = textbookMedian l := by
  by_cases hempty : marks_dict = []
  · subst hempty
    have hl : l = [] := by simpa using hperm.eq_nil
    subst hl
    rfl
  · have hl : l = (marks_dict.map Prod.snd).insertionSort (· ≤ ·) :=
      sorted_perm_eq_insertionSort _ l hperm hsort
    have hlne : l ≠ [] := by
      intro h0
      subst h0
      exact hempty (by simpa using hperm.symm.eq_nil)
    unfold calculate_median textbookMedian
    rw [if_neg hempty, if_neg hlne]
    rw [← hl]
    by_cases hodd : l.length % 2 = 1
    · rw [if_pos hodd, if_pos hodd]
      have hidx : l.length / 2 = (l.length - 1) / 2 := by omega
      rw [hidx]
    · rw [if_neg hodd, if_neg hodd]

/-- C2 witness: over the concrete store `{b: 3, a: 1, c: 2}` with sorted
permutation `[1, 2, 3]` of its values. -/
theorem calculate_median_textbook_witness :
    ([1, 2, 3] : List Int).Perm ([("b", (3 : Int)), ("a", 1), ("c", 2)].map Prod.snd) ∧
    ([1, 2, 3] : List Int).Sorted (· ≤ ·) ∧
    calculate_median [("b", 3), ("a", 1), ("c", 2)] = textbookMedian [1, 2, 3] :=
  ⟨by decide, by decide,
    calculate_median_textbook [("b", 3), ("a", 1), ("c", 2)] [1, 2, 3] (by decide) (by decide)⟩

lemma processRow_accepted {row : List String} {m : Int} (h : row_score row = some m)
    (acc : ScoreStore × List CsvMessage) :
    processRow acc row = (pyInsert acc.1 (row_name row) m, acc.2) := by
  unfold row_score at h
  unfold processRow row_name
  by_cases hlen : 2 ≤ row.length
  · rw [if_pos hlen] at h
    rw [if_pos hlen]
    cases hp : pyInt (pyStrip (row.getD 1 "")) with
    | some m2 =>
      rw [hp] at h
      replace h : (if 0 ≤ m2 ∧ m2 ≤ 100 then some m2 else none) = some m := h
      simp only [hp]
      by_cases hr : 0 ≤ m2 ∧ m2 ≤ 100
      · rw [if_pos hr] at h
        injection h with hm
        subst hm
        rw [if_pos hr]
      · rw [if_neg hr] at h
        cases h
    | none =>
      rw [hp] at h
      cases h
  · rw [if_neg hlen] at h
    cases h

lemma processRow_rejected {row : List String} (h : row_score row = none)
    (acc : ScoreStore × List CsvMessage) :
    (processRow acc row).1 = acc.1 ∧
    (processRow acc row).2.length = acc.2.length + 1 := by
  unfold row_score at h
  unfold processRow
  by_cases hlen : 2 ≤ row.length
  · rw [if_pos hlen] at h
    rw [if_pos hlen]
    cases hp : pyInt (pyStrip (row.getD 1 "")) with
    | some m2 =>
      rw [hp] at h
      replace h : (if 0 ≤ m2 ∧ m2 ≤ 100 then some m2 else none) = none := h
      simp only [hp]
      by_cases hr : 0 ≤ m2 ∧ m2 ≤ 100
      · rw [if_pos hr] at h
        cases h
      · rw [if_neg hr]
        simp
    | none =>
      simp only [hp]
      simp
  · rw [if_neg hlen]
    simp

lemma loadFold_key_iff (rows : List (List String))
    (acc : ScoreStore × List CsvMessage) (n : String) :
    n ∈ (rows.foldl processRow acc).1.map Prod.fst ↔
      n ∈ acc.1.map Prod.fst ∨
        ∃ row ∈ rows, row_accepted row = true ∧ row_name row = n := by
  induction rows generalizing acc with
  | nil => simp
  | cons row rest ih =>
    rw [List.foldl_cons, ih]
    cases hs : row_score row with
    | some m =>
      have hacc : row_accepted row = true := by simp [row_accepted, hs]
      rw [processRow_accepted hs acc]
      show n ∈ (pyInsert acc.1 (row_name row) m).map Prod.fst ∨ _ ↔ _
      rw [pyInsert_key_iff, List.exists_mem_cons_iff]
      simp only [hacc, true_and]
      constructor
      · rintro ((rfl | hmem) | hex)
        · exact Or.inr (Or.inl rfl)
        · exact Or.inl hmem
        · exact Or.inr (Or.inr hex)
      · rintro (hmem | rfl | hex)
        · exact Or.inl (Or.inr hmem)
        · exact Or.inl (Or.inl rfl)
        · exact Or.inr hex
    | none =>
      have hacc : row_accepted row = false := by simp [row_accepted, hs]
      rw [(processRow_rejected hs acc).1, List.exists_mem_cons_iff]
      simp [hacc]

lemma loadFold_msgs_length (rows : List (List String))
    (acc : ScoreStore × List CsvMessage) :
    (rows.foldl processRow acc).2.length =
      acc.2.length + (rows.filter (fun r => !row_accepted r)).length := by
  induction rows generalizing acc with
  | nil => simp
  | cons row rest ih =>
    rw [List.foldl_cons, ih, List.filter_cons]
    cases hs : row_score row with
    | some m =>
      have hacc : row_accepted row = true := by simp [row_accepted, hs]
      rw [processRow_accepted hs acc]
      simp [hacc]
    | none =>
      have hacc : row_accepted row = false := by simp [row_accepted, hs]
      rw [(processRow_rejected hs acc).2]
      simp [hacc]
      omega

/-- C6: `load_data_from_csv` accepts into the store exactly the data rows
with at least two fields whose second field parses as an integer in
[0, 100]; every other data row produces exactly one skip warning and
loading continues.  On the concrete file with rows (Eve, 101), (Finn, abc),
(Gus, 77) the store holds exactly the record Gus = 77. -/
theorem load_csv_row_filtering (header : List String) (rows : List (List String)) :
    (∀ n : String,
      n ∈ (rows.foldl processRow ([], [])).1.map Prod.fst ↔
        ∃ row ∈ rows, row_accepted row = true ∧ row_name row = n) ∧
    ((rows.foldl processRow ([], [])).2.length =
      (rows.filter (fun r => !row_accepted r)).length) ∧
    (load_data_from_csv (.content (header :: rows)) =
      (some (rows.foldl processRow ([], [])).1,
        (rows.foldl processRow ([], [])).2 ++
          [.loaded (rows.foldl processRow ([], [])).1.length])) ∧
    (load_data_from_csv
        (.content [["Name", "Mark"], ["Eve", "101"], ["Finn", "abc"], ["Gus", "77"]]) =
      (some [("Gus", 77)],
        [.skipOutOfRange "Eve" 101, .skipInvalidMark "Finn", .loaded 1])) := by
  refine ⟨fun n => ?_, ?_, rfl, by decide⟩
  · rw [loadFold_key_iff]
    simp
  · rw [loadFold_msgs_length]
    simp

lemma pyInsert_range {d : ScoreStore} {k : String} {v : Int}
    (hd : ∀ p ∈ d, 0 ≤ p.2 ∧ p.2 ≤ 100) (hv : 0 ≤ v ∧ v ≤ 100) :
    ∀ p ∈ pyInsert d k v, 0 ≤ p.2 ∧ p.2 ≤ 100 := by
  intro p hp
  rcases pyInsert_mem hp with rfl | hmem
  · exact hv
  · exact hd p hmem

lemma row_score_range {row : List String} {m : Int} (h : row_score row = some m) :
    0 ≤ m ∧ m ≤ 100 := by
  unfold row_score at h
  by_cases hlen : 2 ≤ row.length
  · rw [if_pos hlen] at h
    cases hp : pyInt (pyStrip (row.getD 1 "")) with
    | some m2 =>
      rw [hp] at h
      replace h : (if 0 ≤ m2 ∧ m2 ≤ 100 then some m2 else none) = some m := h
      by_cases hr : 0 ≤ m2 ∧ m2 ≤ 100
      · rw [if_pos hr] at h
        injection h with hm
        subst hm
        exact hr
      · rw [if_neg hr] at h
        cases h
    | none =>
      rw [hp] at h
      cases h
  · rw [if_neg hlen] at h
    cases h

lemma loadFold_range (rows : List (List String))
    (acc : ScoreStore × List CsvMessage)
    (hacc : ∀ p ∈ acc.1, 0 ≤ p.2 ∧ p.2 ≤ 100) :
    ∀ p ∈ (rows.foldl processRow acc).1, 0 ≤ p.2 ∧ p.2 ≤ 100 := by
  induction rows generalizing acc with
  | nil => exact hacc
  | cons row rest ih =>
    rw [List.foldl_cons]
    apply ih
    cases hs : row_score row with
    | some m =>
      rw [processRow_accepted hs acc]
      exact pyInsert_range hacc (row_score_range hs)
    | none =>
      rw [(processRow_rejected hs acc).1]
      exact hacc

lemma manualEntryLoop_range (inputs : List String) (mode : EntryMode)
    (marks : ScoreStore) (h : ∀ p ∈ marks, 0 ≤ p.2 ∧ p.2 ≤ 100) :
    ∀ p ∈ manualEntryLoop inputs mode marks, 0 ≤ p.2 ∧ p.2 ≤ 100 := by
  induction inputs generalizing mode marks with
  | nil =>
    cases mode <;> exact h
  | cons line rest ih =>
    cases mode with
    | awaitName =>
      show ∀ p ∈ (if pyLower (pyStrip line) = "done" then marks
        else if pyStrip line = "" then manualEntryLoop rest .awaitName marks
        else manualEntryLoop rest (.awaitMark (pyStrip line)) marks), _
      split_ifs with h1 h2
      · exact h
      · exact ih .awaitName marks h
      · exact ih (.awaitMark (pyStrip line)) marks h
    | awaitMark name =>
      show ∀ p ∈ (match pyInt line with
        | some mark =>
          if 0 ≤ mark ∧ mark ≤ 100 then manualEntryLoop rest .awaitName (pyInsert marks name mark)
          else manualEntryLoop rest (.awaitMark name) marks
        | none => manualEntryLoop rest (.awaitMark name) marks), _
      cases hp : pyInt line with
      | some mark =>
        show ∀ p ∈ (if 0 ≤ mark ∧ mark ≤ 100 then
            manualEntryLoop rest .awaitName (pyInsert marks name mark)
          else manualEntryLoop rest (.awaitMark name) marks), 0 ≤ p.2 ∧ p.2 ≤ 100
        by_cases hr : 0 ≤ mark ∧ mark ≤ 100
        · rw [if_pos hr]
          exact ih .awaitName (pyInsert marks name mark) (pyInsert_range h hr)
        · rw [if_neg hr]
          exact ih (.awaitMark name) marks h
      | none =>
        exact ih (.awaitMark name) marks h

/-- C7: every score that enters the store through either acquisition method
— manual entry or CSV load — is an integer in [0, 100]; out-of-range or
unparseable values never enter the store. -/
theorem acquisition_scores_in_range :
    (∀ inputs : List String, ∀ p ∈ manual_data_entry inputs, 0 ≤ p.2 ∧ p.2 ≤ 100) ∧
    (∀ (file : FileOutcome) (store : ScoreStore) (msgs : List CsvMessage),
      load_data_from_csv file = (some store, msgs) →
      ∀ p ∈ store, 0 ≤ p.2 ∧ p.2 ≤ 100) := by
  constructor
  · intro inputs p hp
    exact manualEntryLoop_range inputs .awaitName [] (by simp) p hp
  · intro file store msgs hload p hp
    cases file with
    | notFound => simp [load_data_from_csv] at hload
    | ioError => simp [load_data_from_csv] at hload
    | content rows =>
      cases rows with
      | nil => simp [load_data_from_csv] at hload
      | cons header dataRows =>
        have hst : store = (dataRows.foldl processRow ([], [])).1 := by
          have := congrArg Prod.fst hload
          simpa [load_data_from_csv] using this.symm
        subst hst
        exact loadFold_range dataRows ([], []) (by simp) p hp

/-- C7 witness: the record Gus = 77 loaded from a concrete CSV is in
range. -/
theorem acquisition_scores_in_range_witness :
    0 ≤ (("Gus", (77 : Int)) : String × Int).2 ∧
      (("Gus", (77 : Int)) : String × Int).2 ≤ 100 :=
  acquisition_scores_in_range.2 (.content [["Name", "Mark"], ["Gus", "77"]])
    [("Gus", 77)] [.loaded 1] (by decide) ("Gus", 77) (by decide)

/-- C10: when a CSV file contains two valid rows with the same trimmed
name, the later row silently overwrites the earlier one — the concrete
duplicate file ends with one record Ann = 60 and no skip warning, and in
general a valid row updates the existing entry in place without emitting
any message, so the reported record count counts unique names. -/
theorem csv_duplicate_last_wins :
    (load_data_from_csv (.content [["Name", "Mark"], ["Ann", "50"], ["Ann", "60"]]) =
      (some [("Ann", 60)], [.loaded 1])) ∧
    (∀ (acc : ScoreStore × List CsvMessage) (row : List String) (m : Int),
      row_score row = some m →
      processRow acc row = (pyInsert acc.1 (row_name row) m, acc.2)) ∧
    (∀ (d : ScoreStore) (k : String) (v : Int),
      storeLookup k (pyInsert d k v) = some v) ∧
    (∀ (d : ScoreStore) (k : String) (v : Int),
      k ∈ d.map Prod.fst → (pyInsert d k v).length = d.length) :=
  ⟨by decide,
   fun acc row m h => processRow_accepted h acc,
   fun d k v => pyInsert_lookup d k v,
   fun d k v h => pyInsert_length_of_mem d k v h⟩

/-- C10 witness: processing the valid duplicate row (Ann, 60) over a store
already holding Ann = 50 overwrites in place, emits no message, looks up to
the new score, and keeps the record count at one. -/
theorem csv_duplicate_last_wins_witness :
    processRow ([("Ann", (50 : Int))], []) ["Ann", "60"] =
      (pyInsert [("Ann", (50 : Int))] (row_name ["Ann", "60"]) 60, []) ∧
    storeLookup "Ann" (pyInsert [("Ann", (50 : Int))] "Ann" 60) = some 60 ∧
    (pyInsert [("Ann", (50 : Int))] "Ann" 60).length = [("Ann", (50 : Int))].length :=
  ⟨csv_duplicate_last_wins.2.1 ([("Ann", 50)], []) ["Ann", "60"] 60 (by decide),
   csv_duplicate_last_wins.2.2.1 [("Ann", 50)] "Ann" 60,
   csv_duplicate_last_wins.2.2.2 [("Ann", 50)] "Ann" 60 (by decide)⟩

/-- C8 (documents the code bug): on a header-only CSV the store is empty,
the analysis/report block does not run and the menu continues — but the
"no data" notice is never printed, for this or any other store: the notice
at gradebook.py line 259 sits inside `if marks_data:` guarded by
`if not marks_data:` and is unreachable. -/
theorem empty_store_skips_analysis_without_notice :
    load_data_from_csv (.content [["Name", "Mark"]]) = (some [], [.loaded 0]) ∧
    analysisRuns (some []) = false ∧
    menu_iteration "2" [] (.content [["Name", "Mark"]]) = (.continueLoop, false) ∧
    noDataNoticePrinted (some []) = false ∧
    (∀ md : Option ScoreStore, noDataNoticePrinted md = false) := by
  refine ⟨by decide, by decide, by decide, by decide, ?_⟩
  intro md
  cases md with
  | none => rfl
  | some marks =>
    by_cases h : marks = [] <;> simp [noDataNoticePrinted, h]

/-- C9: a missing file or any other read failure makes `load_data_from_csv`
return `None` (no partial store) together with a printed error message,
and the menu loop continues — only the explicit quit choice "3" exits. -/
theorem csv_errors_are_nonfatal :
    load_data_from_csv .notFound = (none, [.fileNotFoundMessage]) ∧
    load_data_from_csv .ioError = (none, [.unexpectedErrorMessage]) ∧
    menu_iteration "2" [] .notFound = (.continueLoop, false) ∧
    menu_iteration "2" [] .ioError = (.continueLoop, false) ∧
    (∀ (choice : String) (manualInputs : List String) (file : FileOutcome),
      (menu_iteration choice manualInputs file).1 = .exitProgram ↔ choice = "3") := by
  refine ⟨rfl, rfl, by decide, by decide, ?_⟩
  intro choice manualInputs file
  unfold menu_iteration
  split_ifs with h1 h2 h3
  · subst h1; decide
  · subst h2; decide
  · subst h3; decide
  · constructor
    · intro hh
      exact absurd hh (by decide)
    · intro hc
      exact absurd hc h3
